import Mathlib

/-!
Verification of the code-translation subsystem of the `oda-importer`
repository (`src/oda_importer/schemas/dac2_translation.py` and
`src/oda_importer/dac1.py`) against its natural-language specification.

Python dictionaries are embedded as insertion-ordered association lists
(`PyDict`), with `dictGet` (lookup of the first matching key — unique in a
real dict), `dictSet` (Python `d[k] = v`: replace in place, else append),
`dictUnion` (Python `a | b`), and `dictOfItems` (a dict comprehension:
repeated insertion, so a later duplicate key overwrites an earlier one).
-/

namespace OdaImporter

/-- A cell / code value as it appears in the Python program: an int or a str. -/
inductive Val where
  | i : Int → Val
  | s : String → Val
deriving DecidableEq, Repr

/-- A Python dict, embedded as its insertion-ordered list of key/value items. -/
abbrev PyDict (K V : Type) := List (K × V)

/-- Dict lookup `d[k]` / `d.get(k)`: the value of the (unique) matching key. -/
def dictGet {K V : Type} [DecidableEq K] (d : PyDict K V) (k : K) : Option V :=
  match d with
  | [] => none
  | p :: rest => if p.1 = k then some p.2 else dictGet rest k

/-- The keys of a dict, in insertion order (`list(d.keys())`). -/
def dictKeys {K V : Type} (d : PyDict K V) : List K := d.map Prod.fst

/-- The values of a dict, in insertion order (`list(d.values())`). -/
def dictValues {K V : Type} (d : PyDict K V) : List V := d.map Prod.snd

/-- Python assignment `d[k] = v`: overwrite in place if `k` is present,
otherwise append the new item at the end. -/
def dictSet {K V : Type} [DecidableEq K] (d : PyDict K V) (k : K) (v : V) : PyDict K V :=
  match d with
  | [] => [(k, v)]
  | p :: rest => if p.1 = k then (k, v) :: rest else p :: dictSet rest k v

/-- Python dict merge `a | b`: start from a copy of `a` and assign every item
of `b` in order, so `b`'s value wins on a key collision. -/
def dictUnion {K V : Type} [DecidableEq K] (a b : PyDict K V) : PyDict K V :=
  b.foldl (fun acc p => dictSet acc p.1 p.2) a

/-- Building a dict from a stream of items (a dict comprehension
`\x7bk: v for ...\x7d`): successive assignment into an initially empty dict,
so for a duplicated key the last item wins. -/
def dictOfItems {K V : Type} [DecidableEq K] (l : List (K × V)) : PyDict K V :=
  l.foldl (fun acc p => dictSet acc p.1 p.2) []

/-- The key/value inversion of `dac2_translation.py` line 48:
`\x7bv: k for k, v in m.items()\x7d`. -/
def invert {K V : Type} [DecidableEq V] (m : PyDict K V) : PyDict V K :=
  dictOfItems (m.map fun p => (p.2, p.1))

section DictLemmas

variable {K V : Type} [DecidableEq K]

@[simp] theorem dictGet_nil (k : K) : dictGet ([] : PyDict K V) k = none := rfl

theorem dictGet_cons (p : K × V) (rest : PyDict K V) (k : K) :
    dictGet (p :: rest) k = if p.1 = k then some p.2 else dictGet rest k := rfl

@[simp] theorem dictGet_set_self (d : PyDict K V) (k : K) (v : V) :
    dictGet (dictSet d k v) k = some v := by
  induction d with
  | nil => simp [dictSet, dictGet]
  | cons p rest ih =>
    by_cases h : p.1 = k
    · simp [dictSet, h, dictGet]
    · simp [dictSet, h, dictGet, ih]

theorem dictGet_set_ne (d : PyDict K V) (k k' : K) (v : V) (hne : k ≠ k') :
    dictGet (dictSet d k v) k' = dictGet d k' := by
  induction d with
  | nil => simp [dictSet, dictGet, hne]
  | cons p rest ih =>
    by_cases h : p.1 = k
    · simp [dictSet, h, dictGet, hne]
    · simp [dictSet, h, dictGet, ih]

theorem dictGet_eq_none_of_not_mem (d : PyDict K V) (k : K)
    (h : k ∉ dictKeys d) : dictGet d k = none := by
  induction d with
  | nil => rfl
  | cons p rest ih =>
    simp only [dictKeys, List.map_cons, List.mem_cons] at h
    push_neg at h
    simp [dictGet, Ne.symm h.1, ih (by simpa [dictKeys] using h.2)]

theorem dictSet_cons_same (p : K × V) (rest : PyDict K V) (k : K) (v : V)
    (h : p.1 = k) : dictSet (p :: rest) k v = (k, v) :: rest := by
  simp [dictSet, h]

theorem dictSet_cons_ne (p : K × V) (rest : PyDict K V) (k : K) (v : V)
    (h : ¬ p.1 = k) : dictSet (p :: rest) k v = p :: dictSet rest k v := by
  simp [dictSet, h]

theorem mem_dictKeys_set (d : PyDict K V) (k j : K) (v : V) :
    j ∈ dictKeys (dictSet d k v) ↔ j ∈ dictKeys d ∨ j = k := by
  induction d with
  | nil => simp [dictSet, dictKeys]
  | cons p rest ih =>
    by_cases h : p.1 = k
    · rw [dictSet_cons_same p rest k v h]
      subst h
      simp only [dictKeys, List.map_cons, List.mem_cons]
      tauto
    · rw [dictSet_cons_ne p rest k v h]
      simp only [dictKeys, List.map_cons, List.mem_cons]
      constructor
      · rintro (hj | hj)
        · exact Or.inl (Or.inl hj)
        · rcases ih.mp hj with h1 | h1
          · exact Or.inl (Or.inr h1)
          · exact Or.inr h1
      · rintro ((hj | hj) | hj)
        · exact Or.inl hj
        · exact Or.inr (ih.mpr (Or.inl hj))
        · exact Or.inr (ih.mpr (Or.inr hj))

theorem mem_dictKeys_union (a b : PyDict K V) (j : K) :
    j ∈ dictKeys (dictUnion a b) ↔ j ∈ dictKeys a ∨ j ∈ dictKeys b := by
  induction b generalizing a with
  | nil => simp [dictUnion, dictKeys]
  | cons p rest ih =>
    show j ∈ dictKeys (dictUnion (dictSet a p.1 p.2) rest) ↔ _
    rw [ih, mem_dictKeys_set]
    simp only [dictKeys, List.map_cons, List.mem_cons]
    tauto

/-- Lookup in a Python merge `a | b`: `b`'s value where `b` has the key
(assuming `b` is a real dict, i.e. has no duplicate keys), else `a`'s. -/
theorem dictGet_union (a b : PyDict K V) (k : K) (hb : (dictKeys b).Nodup) :
    dictGet (dictUnion a b) k =
      match dictGet b k with
      | some v => some v
      | none => dictGet a k := by
  induction b generalizing a with
  | nil => simp [dictUnion, dictGet]
  | cons p rest ih =>
    simp only [dictKeys, List.map_cons, List.nodup_cons] at hb
    show dictGet (dictUnion (dictSet a p.1 p.2) rest) k = _
    rw [ih _ (by simpa [dictKeys] using hb.2)]
    by_cases h : p.1 = k
    · subst h
      have hrest : dictGet rest p.1 = none :=
        dictGet_eq_none_of_not_mem _ _ (by simpa [dictKeys] using hb.1)
      simp [dictGet, hrest]
    · simp [dictGet, h, dictGet_set_ne a p.1 k p.2 h]

theorem dictSet_eq_append_of_not_mem (d : PyDict K V) (k : K) (v : V)
    (h : k ∉ dictKeys d) : dictSet d k v = d ++ [(k, v)] := by
  induction d with
  | nil => rfl
  | cons p rest ih =>
    simp only [dictKeys, List.map_cons, List.mem_cons] at h
    push_neg at h
    simp [dictSet, Ne.symm h.1, ih (by simpa [dictKeys] using h.2)]

theorem dictOfItems_append_single (l : List (K × V)) (p : K × V) :
    dictOfItems (l ++ [p]) = dictSet (dictOfItems l) p.1 p.2 := by
  simp [dictOfItems, List.foldl_append]

/-- Building a dict from items with pairwise-distinct keys reproduces the
item list exactly. -/
theorem dictOfItems_eq_self (l : List (K × V)) (h : (dictKeys l).Nodup) :
    dictOfItems l = l := by
  induction l using List.reverseRecOn with
  | nil => rfl
  | append_singleton l p ih =>
    have hkeys : dictKeys (l ++ [p]) = dictKeys l ++ [p.1] := by
      simp [dictKeys]
    rw [hkeys] at h
    have hl : (dictKeys l).Nodup := (List.nodup_append.mp h).1
    have hp : p.1 ∉ dictKeys l := by
      intro hmem
      have := (List.nodup_append.mp h).2.2
      exact this hmem (by simp)
    rw [dictOfItems_append_single, ih hl, dictSet_eq_append_of_not_mem _ _ _ hp]

/-- Lookup in a dict built from an item stream: the value of the last
matching item (a later duplicate key overwrote the earlier ones). -/
theorem dictGet_dictOfItems (l : List (K × V)) (k : K) :
    dictGet (dictOfItems l) k =
      (l.reverse.find? fun p => decide (p.1 = k)).map Prod.snd := by
  induction l using List.reverseRecOn with
  | nil => rfl
  | append_singleton l p ih =>
    rw [dictOfItems_append_single, List.reverse_append]
    by_cases h : p.1 = k
    · subst h
      simp [List.find?]
    · rw [dictGet_set_ne _ _ _ _ h, ih]
      simp [List.find?, h]

end DictLemmas

/-! ## The mapping store and the loader

`read_mapping` lives in `oda_importer/schemas/xml_tools.py`, which is not
part of the sources under verification; it is modelled from the spec
(§4.4 Mapping Loader). The store is the set of materialized mapping files,
addressed by filename. -/

/-- The error taxonomy of spec §7. -/
inductive LoadError where
  | NetworkError
  | ParseError
  | UpdateFailedError
  | MissingCorrectionsError
  | AmbiguousInversionError
  | KeyCoercionError
deriving DecidableEq, Repr

/-- A raw materialized mapping file: a JSON object, so its keys are strings. -/
abbrev RawMapping := PyDict String Val

/-- The durable Mapping Store: filename → stored mapping (or absent). -/
abbrev Store := String → Option RawMapping

/-- Reads a run of decimal digits as a number; any non-digit character makes
the whole string unparseable. -/
def parseNatAux : List Char → Nat → Option Nat
  | [], acc => some acc
  | c :: cs, acc =>
    if c.isDigit then parseNatAux cs (acc * 10 + (c.toNat - 48)) else none

/-- Integer parsing of a decimal string (Python `int(k)` on a mapping key):
an optional leading minus sign followed by at least one digit. -/
def strToInt? (s : String) : Option Int :=
  match s.data with
  | [] => none
  | c :: rest =>
    if c = '-' then
      match rest with
      | [] => none
      | _ => (parseNatAux rest 0).map fun n => -(n : Int)
    else
      (parseNatAux (c :: rest) 0).map fun n => (n : Int)

/-- Modelled from the spec: §4.4 key coercion — a mapping key is optionally
coerced to integer type; a string key that fails integer coercion fails with
`KeyCoercionError` (only when coercion was requested). -/
def coerceKey (keys_as_int : Bool) (k : String) : Except LoadError Val :=
  if keys_as_int then
    match strToInt? k with
    | some n => .ok (.i n)
    | none => .error .KeyCoercionError
  else
    .ok (.s k)

/-- Modelled from the spec: coercion of a whole raw mapping's keys on load
(§4.4 key coercion); the first key that fails coercion aborts the load. -/
def coerceMapping (keys_as_int : Bool) : RawMapping → Except LoadError (PyDict Val Val)
  | [] => .ok []
  | p :: rest =>
    match coerceKey keys_as_int p.1 with
    | .error e => .error e
    | .ok k =>
      match coerceMapping keys_as_int rest with
      | .error e => .error e
      | .ok m => .ok ((k, p.2) :: m)

/-- The outcome of one `read_mapping` call: the loaded mapping or the error,
the store after the call (the update pipeline may have written files), and
whether the update pipeline was invoked. -/
structure LoadResult where
  result : Except LoadError (PyDict Val Val)
  store : Store
  updateInvoked : Bool

/-- Modelled from the spec: §4.4 Mapping Loader `load(mapping_spec, update_fn)`
(the source's `read_mapping` in `xml_tools.py`, not under the verified
sources): on a store hit, read the mapping; on a miss, invoke `update_fn` to
populate the store and read again; fail with `UpdateFailedError` if the
location still does not exist after the update. Key coercion per §4.4. -/
def read_mapping (loc : String) (keys_as_int : Bool) (update : Store → Store)
    (store : Store) : LoadResult :=
  match store loc with
  | some raw => ⟨coerceMapping keys_as_int raw, store, false⟩
  | none =>
    let store2 := update store
    match store2 loc with
    | some raw => ⟨coerceMapping keys_as_int raw, store2, true⟩
    | none => ⟨.error .UpdateFailedError, store2, true⟩

/-! ## dac2_translation.py -/

/-- The `MAPPINGS` constant of `dac2_translation.py` (logical name → file). -/
def MAPPINGS : PyDict String String :=
  [("dac2_codes_area", "dac2_codes_area.json"),
   ("area_code_corrections", "area_code_corrections.json")]

/-- `MAPPINGS[name]`, defaulting to the empty path for an unknown name. -/
def mappingsPath (name : String) : String := (dictGet MAPPINGS name).getD ""

/-- `update_dac2_translation_mappings` from `dac2_translation.py`: fetch and
parse the remote schema and extract the donor-to-area code mapping into the
`dac2_codes_area` file. The fetch and extraction themselves (`parse_xml`,
`extract_dac_to_area_codes` in `xml_tools.py`, outside the verified sources)
are Modelled from the spec: §4.2/§4.3 — extraction derives a mapping from the
fetched schema document and persists it to the given filename; the derived
mapping is abstracted here as the parameter `extracted`. -/
def update_dac2_translation_mappings (extracted : RawMapping) (store : Store) : Store :=
  fun f => if f = mappingsPath "dac2_codes_area" then some extracted else store f

/-- `area_code_mapping` from `dac2_translation.py`: read the base area-code
mapping and the corrections mapping, both with `keys_as_int=True` and both
with `update=update_dac2_translation_mappings`, and merge them with the
Python dict-union `base | corrections`. The two reads run left to right and
each may mutate the store through the update pipeline. -/
def area_code_mapping (extracted : RawMapping) (store : Store) : LoadResult :=
  let r1 := read_mapping (mappingsPath "dac2_codes_area") true
    (update_dac2_translation_mappings extracted) store
  match r1.result with
  | .error e => ⟨.error e, r1.store, r1.updateInvoked⟩
  | .ok base =>
    let r2 := read_mapping (mappingsPath "area_code_corrections") true
      (update_dac2_translation_mappings extracted) r1.store
    match r2.result with
    | .error e => ⟨.error e, r2.store, r1.updateInvoked || r2.updateInvoked⟩
    | .ok corr =>
      ⟨.ok (dictUnion base corr), r2.store, r1.updateInvoked || r2.updateInvoked⟩

/-! ## Datasets and the column translator -/

/-- A row of a Dataset: named columns holding int or string code values. -/
abbrev Row := PyDict String Val

/-- A Dataset: the ordered rows of the table. -/
abbrev Dataset := List Row

/-- One mapping application to one value: the mapped value where the mapping
has the key, the value itself where it does not (unmapped values pass
through unchanged, spec §4.5). -/
def applyMap (m : PyDict Val Val) (v : Val) : Val := (dictGet m v).getD v

/-- Modelled from the spec: §4.5 Column Translator `translate(dataset,
mapping, source_column, target_column)` (the source's `map_area_codes` and
`map_amount_type_codes` in `schema_tools.py`, not under the verified
sources): a new Dataset in which each row's `target_column` value is the
mapping's value at the row's `source_column` value; rows whose source value
is not a key of the mapping are left unchanged; all other columns, the row
order and the row count are untouched. -/
def translateRow (m : PyDict Val Val) (source_column target_column : String)
    (row : Row) : Row :=
  match dictGet row source_column with
  | none => row
  | some sv =>
    match dictGet m sv with
    | none => row
    | some w => dictSet row target_column w

/-- The column translator on a whole Dataset: `translateRow` on every row,
keeping the row order and the row count. -/
def translate (ds : Dataset) (m : PyDict Val Val)
    (source_column target_column : String) : Dataset :=
  ds.map (translateRow m source_column target_column)

/-- `map_area_codes` of `schema_tools.py`, Modelled from the spec: the generic
column translator applied with the area mapping; its default source and
target column is the donor/provider code column. -/
def map_area_codes (df : Dataset) (area_mapping : PyDict Val Val)
    (source_column target_column : String) : Dataset :=
  translate df area_mapping source_column target_column

/-- `map_amount_type_codes` of `schema_tools.py`, Modelled from the spec: the
generic column translator applied with the (inverted) price mapping. -/
def map_amount_type_codes (df : Dataset) (prices : PyDict Val Val)
    (source_column target_column : String) : Dataset :=
  translate df prices source_column target_column

/-- `convert_to_dotstat_codes` from `dac2_translation.py`: load the merged
area-code mapping once, invert the price mapping (`\x7bv: k for k, v in
prices_mapping().items()\x7d`), then translate the donor code column (the
default column of `map_area_codes`, i.e. `donor_code`), the
`recipient_code` column with the same area mapping, and the
`data_type_code` column with the inverted price mapping. `prices_mapping()`
(in `dac1_translation.py`, outside the verified sources) is abstracted as the
parameter `prices`, the successfully loaded price mapping. -/
def convert_to_dotstat_codes (extracted : RawMapping) (prices : PyDict Val Val)
    (store : Store) (df : Dataset) : Except LoadError Dataset :=
  match (area_code_mapping extracted store).result with
  | .error e => .error e
  | .ok area_codes =>
    let prices_codes := invert prices
    let df1 := map_area_codes df area_codes "donor_code" "donor_code"
    let df2 := map_area_codes df1 area_codes "recipient_code" "recipient_code"
    let df3 := map_amount_type_codes df2 prices_codes "data_type_code" "data_type_code"
    .ok df3

/-! ## Loader and translator lemmas -/

section LoaderLemmas

theorem read_mapping_hit (loc : String) (kai : Bool) (u : Store → Store)
    (store : Store) (raw : RawMapping) (h : store loc = some raw) :
    read_mapping loc kai u store = ⟨coerceMapping kai raw, store, false⟩ := by
  unfold read_mapping
  rw [h]

theorem read_mapping_miss_hit (loc : String) (kai : Bool) (u : Store → Store)
    (store : Store) (raw : RawMapping) (h : store loc = none)
    (h2 : u store loc = some raw) :
    read_mapping loc kai u store = ⟨coerceMapping kai raw, u store, true⟩ := by
  unfold read_mapping
  rw [h]
  simp only [h2]

theorem read_mapping_miss_miss (loc : String) (kai : Bool) (u : Store → Store)
    (store : Store) (h : store loc = none) (h2 : u store loc = none) :
    read_mapping loc kai u store = ⟨.error .UpdateFailedError, u store, true⟩ := by
  unfold read_mapping
  rw [h]
  simp only [h2]

/-- The result component of `area_code_mapping`, written out as the two
sequential `read_mapping` calls followed by the dict union. -/
theorem area_code_mapping_result (extracted : RawMapping) (store : Store) :
    (area_code_mapping extracted store).result =
      match (read_mapping (mappingsPath "dac2_codes_area") true
          (update_dac2_translation_mappings extracted) store).result with
      | .error e => .error e
      | .ok base =>
        match (read_mapping (mappingsPath "area_code_corrections") true
            (update_dac2_translation_mappings extracted)
            (read_mapping (mappingsPath "dac2_codes_area") true
              (update_dac2_translation_mappings extracted) store).store).result with
        | .error e => .error e
        | .ok corr => .ok (dictUnion base corr) := by
  unfold area_code_mapping
  rcases hr1 : read_mapping (mappingsPath "dac2_codes_area") true
      (update_dac2_translation_mappings extracted) store with ⟨res1, st1, inv1⟩
  cases res1 with
  | error e => rfl
  | ok base =>
    dsimp only
    rcases hr2 : read_mapping (mappingsPath "area_code_corrections") true
        (update_dac2_translation_mappings extracted) st1 with ⟨res2, st2, inv2⟩
    cases res2 with
    | error e => rfl
    | ok corr => rfl

theorem coerceKey_error_eq (kai : Bool) (k : String) (e : LoadError)
    (h : coerceKey kai k = .error e) : e = .KeyCoercionError := by
  unfold coerceKey at h
  cases kai with
  | false => simp at h
  | true =>
    cases hp : strToInt? k with
    | some n => rw [hp] at h; simp at h
    | none => rw [hp] at h; simp at h; exact h.symm

theorem coerceKey_true_int (k : String) (v : Val) (h : coerceKey true k = .ok v) :
    ∃ n, v = Val.i n := by
  unfold coerceKey at h
  cases hp : strToInt? k with
  | some n => rw [hp] at h; simp at h; exact ⟨n, h.symm⟩
  | none => rw [hp] at h; simp at h

/-- Keys of a successfully int-coerced mapping are integer values. -/
theorem coerceMapping_true_int_keys (raw : RawMapping) (m : PyDict Val Val)
    (h : coerceMapping true raw = .ok m) :
    ∀ p ∈ m, ∃ n, p.1 = Val.i n := by
  induction raw generalizing m with
  | nil =>
    unfold coerceMapping at h
    simp at h
    subst h
    intro p hp
    simp at hp
  | cons q rest ih =>
    unfold coerceMapping at h
    cases hk : coerceKey true q.1 with
    | error e => rw [hk] at h; simp at h
    | ok k =>
      rw [hk] at h
      cases hrest : coerceMapping true rest with
      | error e => rw [hrest] at h; simp at h
      | ok m' =>
        rw [hrest] at h
        simp at h
        subst h
        intro p hp
        rcases List.mem_cons.mp hp with hp | hp
        · subst hp
          exact coerceKey_true_int q.1 k hk
        · exact ih m' hrest p hp

/-- A key that does not parse as an integer makes int-coerced loading fail
with `KeyCoercionError`. -/
theorem coerceMapping_true_bad_key (raw : RawMapping) (k : String) (v : Val)
    (hmem : (k, v) ∈ raw) (hbad : strToInt? k = none) :
    coerceMapping true raw = .error .KeyCoercionError := by
  induction raw with
  | nil => simp at hmem
  | cons q rest ih =>
    unfold coerceMapping
    cases hk : coerceKey true q.1 with
    | error e =>
      rw [coerceKey_error_eq true q.1 e hk]
    | ok kv =>
      rcases List.mem_cons.mp hmem with hq | hq
      · exfalso
        rw [← hq] at hk
        unfold coerceKey at hk
        rw [hbad] at hk
        simp at hk
      · rw [ih hq]

/-- Loading without coercion never fails: every raw mapping coerces. -/
theorem coerceMapping_false_ok (raw : RawMapping) :
    ∃ m, coerceMapping false raw = .ok m := by
  induction raw with
  | nil => exact ⟨[], rfl⟩
  | cons q rest ih =>
    rcases ih with ⟨m, hm⟩
    refine ⟨(Val.s q.1, q.2) :: m, ?_⟩
    unfold coerceMapping
    rw [hm]
    rfl

theorem mem_dictSet (d : PyDict Val Val) (k : Val) (v : Val) (p : Val × Val)
    (h : p ∈ dictSet d k v) : p ∈ d ∨ p = (k, v) := by
  induction d with
  | nil =>
    unfold dictSet at h
    simp at h
    exact Or.inr h
  | cons q rest ih =>
    by_cases hk : q.1 = k
    · rw [dictSet_cons_same q rest k v hk] at h
      rcases List.mem_cons.mp h with h | h
      · exact Or.inr h
      · exact Or.inl (List.mem_cons.mpr (Or.inr h))
    · rw [dictSet_cons_ne q rest k v hk] at h
      rcases List.mem_cons.mp h with h | h
      · exact Or.inl (List.mem_cons.mpr (Or.inl h))
      · rcases ih h with h | h
        · exact Or.inl (List.mem_cons.mpr (Or.inr h))
        · exact Or.inr h

theorem mem_dictUnion (a b : PyDict Val Val) (p : Val × Val)
    (h : p ∈ dictUnion a b) : p ∈ a ∨ p ∈ b := by
  induction b generalizing a with
  | nil => exact Or.inl h
  | cons q rest ih =>
    have h' : p ∈ dictUnion (dictSet a q.1 q.2) rest := h
    rcases ih (dictSet a q.1 q.2) h' with h1 | h1
    · rcases mem_dictSet a q.1 q.2 p h1 with h2 | h2
      · exact Or.inl h2
      · exact Or.inr (List.mem_cons.mpr (Or.inl h2))
    · exact Or.inr (List.mem_cons.mpr (Or.inr h1))

end LoaderLemmas

section TranslateLemmas

theorem dictGet_translateRow_same (m : PyDict Val Val) (c : String) (row : Row) :
    dictGet (translateRow m c c row) c = (dictGet row c).map (applyMap m) := by
  unfold translateRow applyMap
  cases h : dictGet row c with
  | none => simp [h]
  | some sv =>
    cases hm : dictGet m sv with
    | none => simp [h, hm]
    | some w => simp [h, hm]

theorem dictGet_translateRow_other (m : PyDict Val Val) (sc tc c : String)
    (row : Row) (h : c ≠ tc) :
    dictGet (translateRow m sc tc row) c = dictGet row c := by
  unfold translateRow
  cases hs : dictGet row sc with
  | none => rfl
  | some sv =>
    dsimp only
    cases hm : dictGet m sv with
    | none => rfl
    | some w => exact dictGet_set_ne row tc c w (fun he => h he.symm)

theorem translate_length (ds : Dataset) (m : PyDict Val Val) (sc tc : String) :
    (translate ds m sc tc).length = ds.length := by
  unfold translate
  exact List.length_map ds (translateRow m sc tc)

theorem translate_getElem? (ds : Dataset) (m : PyDict Val Val) (sc tc : String)
    (i : Nat) :
    (translate ds m sc tc)[i]? = (ds[i]?).map (translateRow m sc tc) := by
  unfold translate
  exact List.getElem?_map (translateRow m sc tc) ds i

end TranslateLemmas

/-! ## dac1.py -/

/-- `download_dac1` from `dac1.py`, with its excluded collaborators
(`read_schema_translation`, `QueryBuilder`, `api_response_to_df`,
`preprocess`, and the dac1 `convert_to_dotstat_codes`) abstracted as
parameters: `raw_df` is the dataframe produced by the download,
`preprocessFn` the preprocessing step, and `convertFn` the dac1 code
translation. The flag logic of lines 67-79 is embedded exactly: preprocess
when `pre_process`, then translate when `dotstat_codes`; with
`pre_process=False` and `dotstat_codes=True` raise
`ValueError("Cannot convert to dotstat codes without preprocessing.")`. -/
def download_dac1 (preprocessFn convertFn : Dataset → Dataset) (raw_df : Dataset)
    (pre_process dotstat_codes : Bool) : Except String Dataset :=
  if pre_process then
    let df := preprocessFn raw_df
    if dotstat_codes then .ok (convertFn df) else .ok df
  else
    if dotstat_codes then
      .error "Cannot convert to dotstat codes without preprocessing."
    else
      .ok raw_df

/-! ## Concrete fixtures for witnesses and counterexamples -/

/-- A placeholder for the mapping the update pipeline would extract. -/
def exampleExtracted : RawMapping := [("9", Val.s "Z")]

/-- A store in which the base area file is materialized but the manually
curated corrections file is absent. -/
def storeNoCorrections : Store := fun f =>
  if f = "dac2_codes_area.json" then some [("1", Val.s "A")] else none

/-- A store with both mapping files materialized (the spec §8 merge
scenario: base `\x7b1: A, 2: B\x7d`, corrections `\x7b2: B2, 3: C\x7d`). -/
def storeBoth : Store := fun f =>
  if f = "dac2_codes_area.json" then
    some [("1", Val.s "A"), ("2", Val.s "B")]
  else if f = "area_code_corrections.json" then
    some [("2", Val.s "B2"), ("3", Val.s "C")]
  else none

/-- A store whose base area file has a key that is not an integer. -/
def storeBadKey : Store := fun f =>
  if f = "dac2_codes_area.json" then some [("x", Val.s "A")] else none

/-- The merged area mapping loaded from `storeBoth`. -/
def areaBoth : PyDict Val Val :=
  [(Val.i 1, Val.s "A"), (Val.i 2, Val.s "B2"), (Val.i 3, Val.s "C")]

/-- The spec §8 price mapping, stored target-code → legacy-code. -/
def examplePrices : PyDict Val Val := [(Val.s "N", Val.s "USD_Nominal")]

/-- The spec §8 one-row dataset, plus a pass-through column. -/
def exampleDf : Dataset :=
  [[("donor_code", Val.i 1), ("recipient_code", Val.i 2),
    ("data_type_code", Val.s "N"), ("year", Val.i 2020)]]

/-! ## Claim theorems -/

/-- C5: calling `download_dac1` with `pre_process=False` and
`dotstat_codes=True` fails with the error that dotstat codes cannot be
produced without preprocessing, and no translation is performed: the
outcome is the stated `ValueError` and is independent of the translation
(and preprocessing) step functions, so neither is invoked. -/
theorem download_dac1_no_preprocess_dotstat_error
    (preprocessFn convertFn : Dataset → Dataset) (raw_df : Dataset) :
    download_dac1 preprocessFn convertFn raw_df false true
        = .error "Cannot convert to dotstat codes without preprocessing."
    ∧ ∀ pf2 cf2 : Dataset → Dataset,
        download_dac1 pf2 cf2 raw_df false true
          = download_dac1 preprocessFn convertFn raw_df false true :=
  ⟨rfl, fun _ _ => rfl⟩

/-- C10: calling `download_dac1` with `pre_process=False` and
`dotstat_codes=False` succeeds and returns the downloaded dataframe as-is:
no preprocessing and no translation is applied (the result is the raw
dataframe itself, independent of both step functions) and no error is
raised. -/
theorem download_dac1_raw_passthrough
    (preprocessFn convertFn : Dataset → Dataset) (raw_df : Dataset) :
    download_dac1 preprocessFn convertFn raw_df false false = .ok raw_df :=
  rfl

/-- C9: the update pipeline `update_dac2_translation_mappings` writes only
the base area-code mapping file: the correction file's content is whatever
it was before the update, and every location other than the
`dac2_codes_area` file is untouched (while the `dac2_codes_area` file does
receive the extracted mapping). -/
theorem update_dac2_translation_mappings_frame (extracted : RawMapping)
    (store : Store) :
    update_dac2_translation_mappings extracted store
        (mappingsPath "area_code_corrections")
      = store (mappingsPath "area_code_corrections")
    ∧ update_dac2_translation_mappings extracted store
        (mappingsPath "dac2_codes_area") = some extracted
    ∧ ∀ f, f ≠ mappingsPath "dac2_codes_area" →
        update_dac2_translation_mappings extracted store f = store f := by
  refine ⟨?_, ?_, ?_⟩
  · unfold update_dac2_translation_mappings
    have hne : mappingsPath "area_code_corrections"
        ≠ mappingsPath "dac2_codes_area" := by decide
    rw [if_neg hne]
  · unfold update_dac2_translation_mappings
    rw [if_pos rfl]
  · intro f hf
    unfold update_dac2_translation_mappings
    rw [if_neg hf]

/-- Witness for C9 at a concrete store and location. -/
theorem update_dac2_translation_mappings_frame_witness :
    update_dac2_translation_mappings [] (fun _ => none) "other.json" = none :=
  (update_dac2_translation_mappings_frame [] (fun _ => none)).2.2
    "other.json" (by decide)

/-- C2 (intended behavior violated by the code): the spec says loading the
correction mapping never triggers the fetch-and-extract update pipeline and
that an absent correction file surfaces `MissingCorrectionsError`. The code
of `area_code_mapping`, however, passes
`update=update_dac2_translation_mappings` to the correction-file read too,
so with the correction file absent the loader invokes the update pipeline
(which writes only the base file) and then fails with `UpdateFailedError`:
at this concrete store the update pipeline IS invoked and the error is
`UpdateFailedError`, not `MissingCorrectionsError`. -/
theorem area_code_mapping_corrections_absent_updates :
    (area_code_mapping exampleExtracted storeNoCorrections).result
        = .error .UpdateFailedError
    ∧ (area_code_mapping exampleExtracted storeNoCorrections).updateInvoked
        = true :=
  ⟨rfl, rfl⟩

/-- C3 counterexample: the key/value inversion of `dac2_translation.py`
line 48 is a plain dict comprehension with no failure path; on the spec's
own non-one-to-one example `\x7bA: x, B: x\x7d` it does not fail with
`AmbiguousInversionError` — it successfully produces the inverted mapping
`\x7bx: B\x7d`, the later key having overwritten the earlier one. -/
theorem invert_duplicate_values_counterexample :
    invert [(Val.s "A", Val.s "x"), (Val.s "B", Val.s "x")]
      = [(Val.s "x", Val.s "B")] :=
  rfl

/-- C3 amended: the inversion always succeeds, and the inverted mapping
sends each value occurring in the original mapping to the last key that
carried it (and values not occurring at all to nothing). -/
theorem invert_last_key_wins (m : PyDict Val Val) (v : Val) :
    dictGet (invert m) v
      = (m.reverse.find? fun p => decide (p.2 = v)).map Prod.fst := by
  unfold invert
  rw [dictGet_dictOfItems, ← List.map_reverse, List.find?_map]
  rw [Option.map_map]
  rfl

/-- C7: applying the key/value inversion of line 48 twice to a one-to-one
mapping (a dict, so pairwise-distinct keys, with pairwise-distinct values)
yields the original mapping exactly. -/
theorem invert_involutive_one_to_one (m : PyDict Val Val)
    (hk : (dictKeys m).Nodup) (hv : (dictValues m).Nodup) :
    invert (invert m) = m := by
  have hswap : dictKeys (m.map fun p => (p.2, p.1)) = dictValues m := by
    simp [dictKeys, dictValues]
  have e1 : invert m = m.map fun p => (p.2, p.1) := by
    unfold invert
    exact dictOfItems_eq_self _ (by rw [hswap]; exact hv)
  rw [e1]
  unfold invert
  have e2 : ((m.map fun p => (p.2, p.1)).map fun p => (p.2, p.1)) = m := by
    rw [List.map_map]
    have hcomp : ((fun p : Val × Val => (p.2, p.1)) ∘ fun p : Val × Val => (p.2, p.1))
        = fun p => p := by
      funext p
      rfl
    rw [hcomp, List.map_id']
  rw [e2]
  exact dictOfItems_eq_self _ hk

/-- Witness for C7 on a concrete one-to-one mapping. -/
theorem invert_involutive_one_to_one_witness :
    invert (invert [(Val.i 1, Val.s "X"), (Val.i 2, Val.s "Y")])
      = [(Val.i 1, Val.s "X"), (Val.i 2, Val.s "Y")] :=
  invert_involutive_one_to_one _ (by decide) (by decide)

/-- Auxiliary: a successful `read_mapping` with integer coercion yields a
mapping all of whose keys are integer values. -/
theorem read_mapping_true_int_keys (loc : String) (u : Store → Store)
    (store : Store) (m : PyDict Val Val)
    (h : (read_mapping loc true u store).result = .ok m) :
    ∀ p ∈ m, ∃ n, p.1 = Val.i n := by
  unfold read_mapping at h
  cases h1 : store loc with
  | some raw =>
    rw [h1] at h
    dsimp only at h
    exact coerceMapping_true_int_keys raw m h
  | none =>
    rw [h1] at h
    dsimp only at h
    cases h2 : u store loc with
    | some raw =>
      rw [h2] at h
      dsimp only at h
      exact coerceMapping_true_int_keys raw m h
    | none =>
      rw [h2] at h
      simp at h

/-- C1: when both mapping files are present and coerce successfully, the
mapping returned by `area_code_mapping` is exactly the Python dict union
`base | corrections`; on that union the correction value wins for every key
of the correction mapping, the base value is kept for every key outside the
correction mapping, and the key set is the union of the two key sets. -/
theorem area_code_mapping_override_merge (extracted : RawMapping)
    (store : Store) (rawBase rawCorr : RawMapping) (base corr : PyDict Val Val)
    (hB : store (mappingsPath "dac2_codes_area") = some rawBase)
    (hC : store (mappingsPath "area_code_corrections") = some rawCorr)
    (hcb : coerceMapping true rawBase = .ok base)
    (hcc : coerceMapping true rawCorr = .ok corr)
    (hnd : (dictKeys corr).Nodup) :
    (area_code_mapping extracted store).result = .ok (dictUnion base corr)
    ∧ (∀ k v, dictGet corr k = some v → dictGet (dictUnion base corr) k = some v)
    ∧ (∀ k, dictGet corr k = none →
        dictGet (dictUnion base corr) k = dictGet base k)
    ∧ (∀ k, k ∈ dictKeys (dictUnion base corr)
        ↔ k ∈ dictKeys base ∨ k ∈ dictKeys corr) := by
  have e1 := read_mapping_hit (mappingsPath "dac2_codes_area") true
    (update_dac2_translation_mappings extracted) store rawBase hB
  have e2 := read_mapping_hit (mappingsPath "area_code_corrections") true
    (update_dac2_translation_mappings extracted) store rawCorr hC
  refine ⟨?_, ?_, ?_, ?_⟩
  · rw [area_code_mapping_result, e1]
    dsimp only
    rw [hcb]
    dsimp only
    rw [e2]
    dsimp only
    rw [hcc]
  · intro k v hkv
    rw [dictGet_union base corr k hnd, hkv]
  · intro k hk
    rw [dictGet_union base corr k hnd, hk]
  · exact mem_dictKeys_union base corr

/-- Witness for C1 on the spec §8 merge scenario: base `\x7b1: A, 2: B\x7d`
with corrections `\x7b2: B2, 3: C\x7d` merges to `\x7b1: A, 2: B2, 3: C\x7d`. -/
theorem area_code_mapping_override_merge_witness :
    (area_code_mapping exampleExtracted storeBoth).result
      = .ok (dictUnion [(Val.i 1, Val.s "A"), (Val.i 2, Val.s "B")]
              [(Val.i 2, Val.s "B2"), (Val.i 3, Val.s "C")]) :=
  (area_code_mapping_override_merge exampleExtracted storeBoth
    [("1", Val.s "A"), ("2", Val.s "B")] [("2", Val.s "B2"), ("3", Val.s "C")]
    [(Val.i 1, Val.s "A"), (Val.i 2, Val.s "B")]
    [(Val.i 2, Val.s "B2"), (Val.i 3, Val.s "C")]
    rfl rfl rfl rfl (by decide)).1

/-- C8: `area_code_mapping` loads both mapping files with integer key
coercion. First: every key of a successfully returned merged mapping is an
integer value. Second: a stored key that does not parse as an integer makes
`area_code_mapping` fail with `KeyCoercionError`. Third: a load that does
not request coercion can never fail with `KeyCoercionError` — the error
arises only because coercion was requested. -/
theorem area_code_mapping_int_key_coercion :
    (∀ extracted store m p, (area_code_mapping extracted store).result = .ok m →
        p ∈ m → ∃ n, p.1 = Val.i n)
    ∧ (∀ extracted store rawBase k v,
        store (mappingsPath "dac2_codes_area") = some rawBase →
        (k, v) ∈ rawBase → strToInt? k = none →
        (area_code_mapping extracted store).result = .error .KeyCoercionError)
    ∧ (∀ loc u store,
        (read_mapping loc false u store).result ≠ .error .KeyCoercionError) := by
  refine ⟨?_, ?_, ?_⟩
  · intro extracted store m p hm hp
    rw [area_code_mapping_result] at hm
    rcases h1 : (read_mapping (mappingsPath "dac2_codes_area") true
        (update_dac2_translation_mappings extracted) store).result with e | base
    · rw [h1] at hm
      simp at hm
    · rw [h1] at hm
      dsimp only at hm
      rcases h2 : (read_mapping (mappingsPath "area_code_corrections") true
          (update_dac2_translation_mappings extracted)
          (read_mapping (mappingsPath "dac2_codes_area") true
            (update_dac2_translation_mappings extracted) store).store).result
          with e | corr
      · rw [h2] at hm
        simp at hm
      · rw [h2] at hm
        dsimp only at hm
        have hm' : dictUnion base corr = m := by
          exact Except.ok.inj hm
        rw [← hm'] at hp
        rcases mem_dictUnion base corr p hp with hmem | hmem
        · exact read_mapping_true_int_keys _ _ _ _ h1 p hmem
        · exact read_mapping_true_int_keys _ _ _ _ h2 p hmem
  · intro extracted store rawBase k v hB hmem hbad
    rw [area_code_mapping_result,
      read_mapping_hit (mappingsPath "dac2_codes_area") true
        (update_dac2_translation_mappings extracted) store rawBase hB]
    dsimp only
    rw [coerceMapping_true_bad_key rawBase k v hmem hbad]
  · intro loc u store
    unfold read_mapping
    cases h1 : store loc with
    | some raw =>
      dsimp only
      rcases coerceMapping_false_ok raw with ⟨m, hm⟩
      rw [hm]
      simp
    | none =>
      dsimp only
      cases h2 : u store loc with
      | some raw =>
        dsimp only
        rcases coerceMapping_false_ok raw with ⟨m, hm⟩
        rw [hm]
        simp
      | none =>
        dsimp only
        simp

/-- Witness for C8: a non-integer key `x` in the stored base mapping makes
the load fail with `KeyCoercionError`. -/
theorem area_code_mapping_int_key_coercion_witness :
    (area_code_mapping exampleExtracted storeBadKey).result
      = .error .KeyCoercionError :=
  area_code_mapping_int_key_coercion.2.1 exampleExtracted storeBadKey
    [("x", Val.s "A")] "x" (Val.s "A") rfl (by decide) rfl

/-- C4: `convert_to_dotstat_codes` applies the translations in order —
donor code column with the merged area mapping, then recipient code column
with the same area mapping (loaded once, applied independently), then the
amount-type code column with the inverted price mapping — and returns the
fully translated dataset: in the result, the donor and recipient columns
carry the area-mapped values of the input and the `data_type_code` column
the inverse-price-mapped values. -/
theorem convert_to_dotstat_codes_order (extracted : RawMapping)
    (prices : PyDict Val Val) (store : Store) (df : Dataset)
    (area : PyDict Val Val)
    (h : (area_code_mapping extracted store).result = .ok area) :
    ∃ out, convert_to_dotstat_codes extracted prices store df = .ok out
    ∧ out = map_amount_type_codes
        (map_area_codes (map_area_codes df area "donor_code" "donor_code")
          area "recipient_code" "recipient_code")
        (invert prices) "data_type_code" "data_type_code"
    ∧ ∀ (i : Nat) (row row' : Row), df[i]? = some row → out[i]? = some row' →
        dictGet row' "donor_code" = (dictGet row "donor_code").map (applyMap area)
        ∧ dictGet row' "recipient_code"
            = (dictGet row "recipient_code").map (applyMap area)
        ∧ dictGet row' "data_type_code"
            = (dictGet row "data_type_code").map (applyMap (invert prices)) := by
  have hc : convert_to_dotstat_codes extracted prices store df
      = .ok (map_amount_type_codes
          (map_area_codes (map_area_codes df area "donor_code" "donor_code")
            area "recipient_code" "recipient_code")
          (invert prices) "data_type_code" "data_type_code") := by
    unfold convert_to_dotstat_codes
    rw [h]
  refine ⟨_, hc, rfl, ?_⟩
  intro i row row' hdf hout
  simp only [map_amount_type_codes, map_area_codes, translate_getElem?, hdf,
    Option.map_some'] at hout
  have hrow' : row' = translateRow (invert prices) "data_type_code" "data_type_code"
      (translateRow area "recipient_code" "recipient_code"
        (translateRow area "donor_code" "donor_code" row)) :=
    (Option.some.inj hout).symm
  subst hrow'
  refine ⟨?_, ?_, ?_⟩
  · rw [dictGet_translateRow_other _ _ _ _ _ (by decide),
      dictGet_translateRow_other _ _ _ _ _ (by decide),
      dictGet_translateRow_same]
  · rw [dictGet_translateRow_other _ _ _ _ _ (by decide),
      dictGet_translateRow_same,
      dictGet_translateRow_other _ _ _ _ _ (by decide)]
  · rw [dictGet_translateRow_same,
      dictGet_translateRow_other _ _ _ _ _ (by decide),
      dictGet_translateRow_other _ _ _ _ _ (by decide)]

/-- Witness for C4 on the spec §8 scenario dataset and mappings. -/
theorem convert_to_dotstat_codes_order_witness :
    ∃ out, convert_to_dotstat_codes exampleExtracted examplePrices storeBoth
        exampleDf = .ok out
    ∧ out = map_amount_type_codes
        (map_area_codes (map_area_codes exampleDf areaBoth "donor_code" "donor_code")
          areaBoth "recipient_code" "recipient_code")
        (invert examplePrices) "data_type_code" "data_type_code"
    ∧ ∀ (i : Nat) (row row' : Row), exampleDf[i]? = some row → out[i]? = some row' →
        dictGet row' "donor_code" = (dictGet row "donor_code").map (applyMap areaBoth)
        ∧ dictGet row' "recipient_code"
            = (dictGet row "recipient_code").map (applyMap areaBoth)
        ∧ dictGet row' "data_type_code"
            = (dictGet row "data_type_code").map (applyMap (invert examplePrices)) :=
  convert_to_dotstat_codes_order exampleExtracted examplePrices storeBoth
    exampleDf areaBoth rfl

/-- C6: `convert_to_dotstat_codes` preserves the row count and the row
order (the row at every index of the output is derived from the input row
at the same index), and every column other than `donor_code`,
`recipient_code` and `data_type_code` is unchanged. The embedding is a pure
function of the input dataset, which is consumed by value, so the caller's
dataset is not mutated. -/
theorem convert_to_dotstat_codes_frame (extracted : RawMapping)
    (prices : PyDict Val Val) (store : Store) (df : Dataset)
    (area : PyDict Val Val)
    (h : (area_code_mapping extracted store).result = .ok area) :
    ∃ out, convert_to_dotstat_codes extracted prices store df = .ok out
    ∧ out.length = df.length
    ∧ ∀ (i : Nat) (row row' : Row), df[i]? = some row → out[i]? = some row' →
        ∀ c, c ≠ "donor_code" → c ≠ "recipient_code" → c ≠ "data_type_code" →
          dictGet row' c = dictGet row c := by
  have hc : convert_to_dotstat_codes extracted prices store df
      = .ok (map_amount_type_codes
          (map_area_codes (map_area_codes df area "donor_code" "donor_code")
            area "recipient_code" "recipient_code")
          (invert prices) "data_type_code" "data_type_code") := by
    unfold convert_to_dotstat_codes
    rw [h]
  refine ⟨_, hc, ?_, ?_⟩
  · simp only [map_amount_type_codes, map_area_codes, translate_length]
  · intro i row row' hdf hout
    simp only [map_amount_type_codes, map_area_codes, translate_getElem?, hdf,
      Option.map_some'] at hout
    have hrow' : row' = translateRow (invert prices) "data_type_code" "data_type_code"
        (translateRow area "recipient_code" "recipient_code"
          (translateRow area "donor_code" "donor_code" row)) :=
      (Option.some.inj hout).symm
    subst hrow'
    intro c hdc hrc hdtc
    rw [dictGet_translateRow_other _ _ _ _ _ hdtc,
      dictGet_translateRow_other _ _ _ _ _ hrc,
      dictGet_translateRow_other _ _ _ _ _ hdc]

/-- Witness for C6 on the spec §8 scenario dataset: the pass-through
`year` column is untouched. -/
theorem convert_to_dotstat_codes_frame_witness :
    ∃ out, convert_to_dotstat_codes exampleExtracted examplePrices storeBoth
        exampleDf = .ok out
    ∧ out.length = exampleDf.length
    ∧ ∀ (i : Nat) (row row' : Row), exampleDf[i]? = some row → out[i]? = some row' →
        ∀ c, c ≠ "donor_code" → c ≠ "recipient_code" → c ≠ "data_type_code" →
          dictGet row' c = dictGet row c :=
  convert_to_dotstat_codes_frame exampleExtracted examplePrices storeBoth
    exampleDf areaBoth rfl

end OdaImporter
